import Mathlib

/-
Verification of the transaction-ingestion and balance-derivation core of the
ledgerservice repository (package `transactionmanager`, file
`internal/transactionmanager/transaction.go`, together with the persisted SQL
schema `users` / `transactions`).

Shallow embedding:
- UUIDs are modelled as `Nat` (only identity/equality of a UUID is ever used).
- `decimal.Decimal` (exact decimal arithmetic) is modelled as `Rat`; the only
  operations used are strict positivity (`IsPositive`), equality and summation,
  on which `Rat` is a faithful superset of shopspring decimals.
- `time.Time` is modelled as `Int` (only carried around, never inspected).
- `context.Context` is modelled as an explicit `Context` value threaded through
  every operation, as in the Go source; no operation of the core inspects it.
- Go's `(T, error)` returns are modelled as `T × Option Err` with the Go zero
  value in the `T` component on failure, exactly as the source writes it.
- The persistent store is a `Store` value (rows of the `users` and
  `transactions` tables); each repository call is an atomic step from store to
  store, which is the concurrency model of the spec: all synchronization is
  delegated to the store's atomic insert, so an interleaving of N calls is an
  ordering of their atomic insert steps.

The storage repository implementation is not part of the given sources (only
its callers and the SQL schema are), so the repository operations below are
modelled from the spec, as marked in their doc comments. Everything in the
`transactionmanager` namespace is translated from the Go source.
-/

set_option autoImplicit false

namespace Ledger

/-- A row of the `users` table: `users(id UUID PRIMARY KEY, balance DOUBLE PRECISION NOT NULL)`. -/
structure User where
  ID : Nat
  Balance : Rat
deriving DecidableEq

/-- A row of the `transactions` table:
`transactions(id UUID PRIMARY KEY, user_id UUID NOT NULL, amount, created_at, idempotency_key)`. -/
structure StorageTransaction where
  ID : Nat
  UserID : Nat
  Amount : Rat
  CreatedAt : Int
  IdempotencyKey : Nat
deriving DecidableEq

/-- The domain transaction of the `transactionmanager` package (same fields as the storage row). -/
structure Transaction where
  ID : Nat
  UserID : Nat
  Amount : Rat
  CreatedAt : Int
  IdempotencyKey : Nat
deriving DecidableEq

/-- The Go zero value `Transaction{}`: all fields zero. -/
def Transaction.zero : Transaction :=
  { ID := 0, UserID := 0, Amount := 0, CreatedAt := 0, IdempotencyKey := 0 }

/-- Model of `context.Context`: a cancellation/deadline capability threaded through
every call. No operation of the core inspects it. -/
structure Context where
  deadline : Option Nat
  cancelled : Bool
deriving DecidableEq

/-- The durable store: the rows of the two tables. This is the single source of
truth; the transaction manager holds no state of its own between calls. -/
structure Store where
  users : List User
  transactions : List StorageTransaction
deriving DecidableEq

/-- Failure modes a repository call can produce, per the spec's error taxonomy:
an identity-key (primary key) uniqueness violation, a missing referenced user,
a constraint violation unrelated to identity (the foreign key on `user_id`),
a not-null violation, connection loss, and cancellation. -/
inductive StorageFailure where
  | uniqueViolation
  | userNotFound
  | fkViolation
  | notNullViolation
  | connectionLoss
  | cancelled
deriving DecidableEq

/-- The error text of each storage failure, as the Go `err.Error()` string the
transaction manager inspects (Postgres wording for the constraint errors). -/
def errMsg : StorageFailure → String
  | .uniqueViolation => "pq: duplicate key value violates unique constraint \"transactions_pkey\""
  | .userNotFound => "user not found"
  | .fkViolation => "pq: insert or update on table \"transactions\" violates foreign key constraint \"transactions_user_id_fkey\""
  | .notNullViolation => "pq: null value in column \"amount\" violates not-null constraint"
  | .connectionLoss => "dial tcp: connection refused"
  | .cancelled => "context canceled"

/-- Model of `strings.HasPrefix` on character lists. -/
def listStartsWith : List Char → List Char → Bool
  | [], _ => true
  | _ :: _, [] => false
  | a :: as, b :: bs => a == b && listStartsWith as bs

/-- Containment of `pat` as a contiguous sublist, on character lists. -/
def listHasSub (pat : List Char) : List Char → Bool
  | [] => pat.isEmpty
  | c :: rest => listStartsWith pat (c :: rest) || listHasSub pat rest

/-- Model of Go `strings.Contains s pat`. -/
def strContains (s pat : String) : Bool :=
  listHasSub pat.data s.data

/-- Error values the transaction manager can return to its caller: its own two
sentinel errors (`ErrInvalidTransaction`, `ErrTransactionAlreadyExist`) and any
error value propagated from the storage layer. -/
inductive Err where
  | invalidTransaction
  | transactionAlreadyExist
  | storage (f : StorageFailure)
deriving DecidableEq

/-- Whether a user with this id exists in the store. -/
def userExists (s : Store) (uid : Nat) : Bool :=
  (s.users.find? (fun u => u.ID == uid)).isSome

/-- The ids of all persisted transactions (the column the primary key is on). -/
def txIDs (s : Store) : List Nat :=
  s.transactions.map (fun r => r.ID)

/-- Sum of the amounts of all persisted transactions of one user. -/
def txSum (s : Store) (uid : Nat) : Rat :=
  ((s.transactions.filter (fun r => r.UserID == uid)).map (fun r => r.Amount)).sum

/-- Modelled from the spec: `storage.UserRepository.FindByID` (the storage
package is not among the given sources). Fails with the repository's not-found
error if the user is absent; per spec section 4 and design note (a), the
returned balance always equals the sum of that user's persisted transaction
amounts at the instant of the read. -/
def Store.findByID (s : Store) (uid : Nat) : Except StorageFailure User :=
  match s.users.find? (fun u => u.ID == uid) with
  | none => Except.error StorageFailure.userNotFound
  | some u => Except.ok { u with Balance := txSum s uid }

/-- Modelled from the spec: `storage.TransactionRepository.AddTransaction` (the
storage package is not among the given sources). A single atomic insert into the
`transactions` table: it fails with the uniqueness-violation conflict when a row
with the same identity (primary key `id`) already exists, fails with the
repository's not-found error when the referenced user does not exist, and
otherwise durably appends exactly one row. The step is atomic: under
concurrency, an interleaving of such calls is an ordering of these steps. -/
def Store.addTransactionRow (s : Store) (r : StorageTransaction) :
    Except StorageFailure StorageTransaction × Store :=
  if s.transactions.any (fun q => q.ID == r.ID) then
    (Except.error StorageFailure.uniqueViolation, s)
  else if (s.users.find? (fun u => u.ID == r.UserID)).isSome then
    (Except.ok r, { s with transactions := s.transactions ++ [r] })
  else
    (Except.error StorageFailure.userNotFound, s)

/-- Modelled from the spec: `storage.TransactionRepository.GetUserTransactionHistory`
(the storage package is not among the given sources). A paginated read filtered
by user, `page` 1-indexed, `pageSize` bounding the returned length, in the
stable persisted order. -/
def Store.getUserTransactionHistory (s : Store) (uid page pageSize : Nat) :
    Except StorageFailure (List StorageTransaction) :=
  Except.ok (((s.transactions.filter (fun r => r.UserID == uid)).drop
    ((page - 1) * pageSize)).take pageSize)

/-- The field-by-field conversion `storage.Transaction{ID: t.ID, ...}` performed
by `AddTransaction` in transaction.go lines 31-37. -/
def toStorageTransaction (t : Transaction) : StorageTransaction :=
  { ID := t.ID, UserID := t.UserID, Amount := t.Amount, CreatedAt := t.CreatedAt,
    IdempotencyKey := t.IdempotencyKey }

/-- The field-by-field conversion back to a domain transaction performed by
`GetUserTransactionHistory` in transaction.go lines 76-84. -/
def fromStorageTransaction (r : StorageTransaction) : Transaction :=
  { ID := r.ID, UserID := r.UserID, Amount := r.Amount, CreatedAt := r.CreatedAt,
    IdempotencyKey := r.IdempotencyKey }

/-- The conflict marker string-matched by transaction.go line 39. -/
def pgUniqueViolationMarker : String :=
  "duplicate key value violates unique constraint"

/-- ValidateTransaction (transaction.go lines 49-52):
`return transaction.Amount.IsPositive()` - a transaction is valid iff its
amount is strictly positive. -/
def ValidateTransaction (_ctx : Context) (transaction : Transaction) : Bool :=
  decide (0 < transaction.Amount)

/-- The error mapping of transaction.go lines 39-44: an insert error whose text
contains the conflict marker is returned as `ErrTransactionAlreadyExist`; any
other insert error is surfaced unmodified. -/
def handleStorageErr (f : StorageFailure) : Err :=
  if strContains (errMsg f) pgUniqueViolationMarker then
    Err.transactionAlreadyExist
  else
    Err.storage f

/-- AddTransaction (transaction.go lines 26-47). Returns the Go pair
`(Transaction, error)` together with the store after the call. -/
def AddTransaction (ctx : Context) (s : Store) (transactionEntity : Transaction) :
    (Transaction × Option Err) × Store :=
  if ¬ ValidateTransaction ctx transactionEntity then
    ((Transaction.zero, some Err.invalidTransaction), s)
  else
    match s.addTransactionRow (toStorageTransaction transactionEntity) with
    | (Except.error f, s') => ((Transaction.zero, some (handleStorageErr f)), s')
    | (Except.ok _, s') => ((transactionEntity, none), s')

/-- GetUserBalance (transaction.go lines 54-61). On a lookup failure the error
is propagated and the Go code returns `decimal.NewFromFloat(0)`; on success the
user's balance is relayed unchanged, with no arithmetic in this layer. -/
def GetUserBalance (_ctx : Context) (s : Store) (userID : Nat) : Rat × Option Err :=
  match s.findByID userID with
  | Except.error f => (0, some (Err.storage f))
  | Except.ok user => (user.Balance, none)

/-- GetUserTransactionHistory (transaction.go lines 63-86). Validates the user
first via `FindByID`; on any failure returns the empty slice with the error;
otherwise converts each storage row field-by-field. -/
def GetUserTransactionHistory (_ctx : Context) (s : Store) (userID page pageSize : Nat) :
    List Transaction × Option Err :=
  match s.findByID userID with
  | Except.error f => ([], some (Err.storage f))
  | Except.ok _ =>
    match s.getUserTransactionHistory userID page pageSize with
    | Except.error f => ([], some (Err.storage f))
    | Except.ok transactionResult => (transactionResult.map fromStorageTransaction, none)

/-- Run a batch of `AddTransaction` calls against the store in the given order.
Since each call's store interaction is a single atomic step, an arbitrary
interleaving of N concurrent calls is exactly an ordering of their steps, so
quantifying over the list covers every interleaving. -/
def runCalls (ctx : Context) (s : Store) : List Transaction → List (Transaction × Option Err) × Store
  | [] => ([], s)
  | t :: ts =>
    let r := AddTransaction ctx s t
    let rest := runCalls ctx r.2 ts
    (r.1 :: rest.1, rest.2)

/-- Number of calls in a batch result that observed success. -/
def countSuccess (rs : List (Transaction × Option Err)) : Nat :=
  (rs.filter (fun p => p.2.isNone)).length

/-- Number of calls in a batch result that observed the duplicate-submission error. -/
def countDup (rs : List (Transaction × Option Err)) : Nat :=
  (rs.filter (fun p => decide (p.2 = some Err.transactionAlreadyExist))).length

end Ledger

namespace Ledger

/-- Concrete context used to instantiate witnesses. -/
def ctx0 : Context := { deadline := none, cancelled := false }

/-- Concrete user used to instantiate witnesses. -/
def wUser : User := { ID := 1, Balance := 0 }

/-- Concrete store (one user, no transactions) used to instantiate witnesses. -/
def wStore : Store := { users := [wUser], transactions := [] }

/-- Concrete store with no users, used to instantiate witnesses. -/
def wEmptyStore : Store := { users := [], transactions := [] }

/-- Concrete valid transaction used to instantiate witnesses. -/
def wtxA : Transaction :=
  { ID := 10, UserID := 1, Amount := 100, CreatedAt := 0, IdempotencyKey := 500 }

/-- Concrete valid transaction sharing `wtxA`'s idempotency key but not its id. -/
def wtxB : Transaction :=
  { ID := 11, UserID := 1, Amount := 2, CreatedAt := 0, IdempotencyKey := 500 }

theorem validate_iff (ctx : Context) (t : Transaction) :
    ValidateTransaction ctx t = true ↔ 0 < t.Amount := by
  simp [ValidateTransaction]

theorem marker_unique :
    strContains (errMsg StorageFailure.uniqueViolation) pgUniqueViolationMarker = true := by
  decide

theorem marker_other (f : StorageFailure) (h : f ≠ StorageFailure.uniqueViolation) :
    strContains (errMsg f) pgUniqueViolationMarker = false := by
  cases f <;> first | exact absurd rfl h | decide

theorem handle_unique :
    handleStorageErr StorageFailure.uniqueViolation = Err.transactionAlreadyExist := by
  simp [handleStorageErr, marker_unique]

theorem handle_other (f : StorageFailure) (h : f ≠ StorageFailure.uniqueViolation) :
    handleStorageErr f = Err.storage f := by
  simp [handleStorageErr, marker_other f h]

theorem any_id_of_mem (s : Store) (i : Nat) (h : i ∈ txIDs s) :
    s.transactions.any (fun q => q.ID == i) = true := by
  rw [List.any_eq_true]
  rcases List.mem_map.mp h with ⟨r, hr, he⟩
  exact ⟨r, hr, by simp [he]⟩

theorem any_id_of_not_mem (s : Store) (i : Nat) (h : i ∉ txIDs s) :
    s.transactions.any (fun q => q.ID == i) = false := by
  rw [List.any_eq_false]
  intro r hr
  simp only [beq_iff_eq]
  intro he
  exact h (List.mem_map.mpr ⟨r, hr, he⟩)

theorem add_dup (ctx : Context) (s : Store) (t : Transaction)
    (hpos : 0 < t.Amount) (hid : t.ID ∈ txIDs s) :
    AddTransaction ctx s t = ((Transaction.zero, some Err.transactionAlreadyExist), s) := by
  have hany : s.transactions.any (fun q => q.ID == t.ID) = true := any_id_of_mem s t.ID hid
  simp [AddTransaction, ValidateTransaction, hpos, Store.addTransactionRow,
    toStorageTransaction, hany, handle_unique]

theorem add_fresh (ctx : Context) (s : Store) (t : Transaction)
    (hpos : 0 < t.Amount) (husr : userExists s t.UserID = true) (hid : t.ID ∉ txIDs s) :
    AddTransaction ctx s t =
      ((t, none), { s with transactions := s.transactions ++ [toStorageTransaction t] }) := by
  have hany : s.transactions.any (fun q => q.ID == t.ID) = false := any_id_of_not_mem s t.ID hid
  simp only [userExists] at husr
  simp [AddTransaction, ValidateTransaction, hpos, Store.addTransactionRow,
    toStorageTransaction, hany, husr]

theorem add_no_user (ctx : Context) (s : Store) (t : Transaction)
    (hpos : 0 < t.Amount) (husr : userExists s t.UserID = false) (hid : t.ID ∉ txIDs s) :
    AddTransaction ctx s t =
      ((Transaction.zero, some (Err.storage StorageFailure.userNotFound)), s) := by
  have hany : s.transactions.any (fun q => q.ID == t.ID) = false := any_id_of_not_mem s t.ID hid
  simp only [userExists] at husr
  simp [AddTransaction, ValidateTransaction, hpos, Store.addTransactionRow,
    toStorageTransaction, hany, husr, handle_other StorageFailure.userNotFound (by simp)]

end Ledger

namespace Ledger

theorem txIDs_snoc (s : Store) (r : StorageTransaction) :
    txIDs { s with transactions := s.transactions ++ [r] } = txIDs s ++ [r.ID] := by
  simp [txIDs]

theorem filter_id_nil (s : Store) (k : Nat) (h : k ∉ txIDs s) :
    s.transactions.filter (fun r => r.ID == k) = [] := by
  rw [List.filter_eq_nil_iff]
  intro r hr
  simp only [beq_iff_eq]
  intro he
  exact h (List.mem_map.mpr ⟨r, hr, he⟩)

theorem run_dup (ctx : Context) (k : Nat) (ts : List Transaction) :
    ∀ s : Store, (∀ t ∈ ts, t.ID = k) → (∀ t ∈ ts, 0 < t.Amount) → k ∈ txIDs s →
      runCalls ctx s ts =
        (ts.map (fun _ => (Transaction.zero, some Err.transactionAlreadyExist)), s) := by
  induction ts with
  | nil => intro s _ _ _; simp [runCalls]
  | cons t ts ih =>
    intro s hk hp hmem
    have hd : AddTransaction ctx s t = ((Transaction.zero, some Err.transactionAlreadyExist), s) :=
      add_dup ctx s t (hp t (List.mem_cons_self t ts))
        (by rw [hk t (List.mem_cons_self t ts)]; exact hmem)
    have hrest := ih s (fun x hx => hk x (List.mem_cons_of_mem t hx))
      (fun x hx => hp x (List.mem_cons_of_mem t hx)) hmem
    simp [runCalls, hd, hrest]

theorem countSuccess_dupList (ts : List Transaction) :
    countSuccess (ts.map (fun _ => (Transaction.zero, some Err.transactionAlreadyExist))) = 0 := by
  induction ts with
  | nil => simp [countSuccess]
  | cons t ts ih => simp [countSuccess, List.filter_cons]

theorem countDup_dupList (ts : List Transaction) :
    countDup (ts.map (fun _ => (Transaction.zero, some Err.transactionAlreadyExist))) =
      ts.length := by
  induction ts with
  | nil => simp [countDup]
  | cons t ts ih => simp [countDup, List.filter_cons]

end Ledger

namespace Ledger

/-- C1: for every set of N (N ≥ 2) concurrent `AddTransaction` calls sharing one
identity/idempotency key (all valid, against existing users, the shared key not
yet persisted), every ordering of their atomic insert steps - hence every
interleaving - yields exactly one success and N−1 `TransactionAlreadyExists`
outcomes, and at most one row is durably created per distinct identity: exactly
one row carries the contended key and the persisted ids stay pairwise distinct. -/
theorem c1_exactly_once_under_contention (ctx : Context) (s : Store)
    (ts : List Transaction) (k ik : Nat)
    (hN : 2 ≤ ts.length)
    (hid : ∀ t ∈ ts, t.ID = k)
    (hik : ∀ t ∈ ts, t.IdempotencyKey = ik)
    (hpos : ∀ t ∈ ts, 0 < t.Amount)
    (husr : ∀ t ∈ ts, userExists s t.UserID = true)
    (hfresh : k ∉ txIDs s)
    (hwf : (txIDs s).Nodup) :
    countSuccess (runCalls ctx s ts).1 = 1 ∧
    countDup (runCalls ctx s ts).1 = ts.length - 1 ∧
    ((runCalls ctx s ts).2.transactions.filter (fun r => r.ID == k)).length = 1 ∧
    (txIDs (runCalls ctx s ts).2).Nodup := by
  match ts, hN with
  | t :: rest, _ =>
    have htk : t.ID = k := hid t (List.mem_cons_self t rest)
    have hfirst : AddTransaction ctx s t =
        ((t, none), { s with transactions := s.transactions ++ [toStorageTransaction t] }) :=
      add_fresh ctx s t (hpos t (List.mem_cons_self t rest))
        (husr t (List.mem_cons_self t rest)) (by rw [htk]; exact hfresh)
    have hs1ids : txIDs { s with transactions := s.transactions ++ [toStorageTransaction t] } =
        txIDs s ++ [k] := by
      rw [txIDs_snoc]
      simp [toStorageTransaction, htk]
    have hmem : k ∈ txIDs { s with transactions := s.transactions ++ [toStorageTransaction t] } := by
      rw [hs1ids]
      exact List.mem_append_right _ (List.mem_singleton.mpr rfl)
    have hrest := run_dup ctx k rest
      { s with transactions := s.transactions ++ [toStorageTransaction t] }
      (fun x hx => hid x (List.mem_cons_of_mem t hx))
      (fun x hx => hpos x (List.mem_cons_of_mem t hx)) hmem
    have hrun : runCalls ctx s (t :: rest) =
        ((t, none) :: rest.map (fun _ => (Transaction.zero, some Err.transactionAlreadyExist)),
          { s with transactions := s.transactions ++ [toStorageTransaction t] }) := by
      simp [runCalls, hfirst, hrest]
    refine ⟨?_, ?_, ?_, ?_⟩
    · rw [hrun]
      simp [countSuccess, List.filter_cons]
    · rw [hrun]
      simp [countDup, List.filter_cons]
    · rw [hrun]
      simp only [List.filter_append, filter_id_nil s k hfresh]
      simp [toStorageTransaction, htk]
    · rw [hrun, hs1ids]
      simp only [List.nodup_append]
      refine ⟨hwf, List.nodup_singleton k, ?_⟩
      intro a ha hb
      rw [List.mem_singleton.mp hb] at ha
      exact hfresh ha

/-- Witness for C1 at a concrete instance: two identical concurrent submissions
against a one-user store yield one success, one duplicate, one persisted row. -/
theorem c1_exactly_once_under_contention_witness :
    countSuccess (runCalls ctx0 wStore [wtxA, wtxA]).1 = 1 ∧
    countDup (runCalls ctx0 wStore [wtxA, wtxA]).1 = [wtxA, wtxA].length - 1 ∧
    ((runCalls ctx0 wStore [wtxA, wtxA]).2.transactions.filter (fun r => r.ID == 10)).length = 1 ∧
    (txIDs (runCalls ctx0 wStore [wtxA, wtxA]).2).Nodup :=
  c1_exactly_once_under_contention ctx0 wStore [wtxA, wtxA] 10 500
    (by decide) (by decide) (by decide) (by decide) (by decide) (by decide) (by decide)

end Ledger

namespace Ledger

/-- C2 counterexample: two submissions carrying the same idempotency key (500)
but distinct transaction ids (10 and 11) do NOT collide: both inserts succeed
and the store ends up with two persisted rows for that idempotency key, because
the uniqueness constraint of the schema is the primary key on `id` and there is
no uniqueness constraint on `idempotency_key`. -/
theorem c2_per_idempotency_key_uniqueness_cex :
    (AddTransaction ctx0 wStore wtxA).1.2 = none ∧
    (AddTransaction ctx0 (AddTransaction ctx0 wStore wtxA).2 wtxB).1.2 = none ∧
    wtxA.IdempotencyKey = wtxB.IdempotencyKey ∧
    wtxA ≠ wtxB ∧
    (((AddTransaction ctx0 (AddTransaction ctx0 wStore wtxA).2 wtxB).2.transactions.filter
      (fun r => r.IdempotencyKey == 500)).length = 2) := by
  decide

/-- C2 amended: at most one persisted transaction exists per transaction id (the
identity key the store's uniqueness constraint is actually enforced over). A
second submission collides and is rejected as a conflict - not persisted as a
new row - exactly when it carries the same id as an already persisted
transaction; the persisted ids stay pairwise distinct across inserts. -/
theorem c2_per_identity_uniqueness (ctx : Context) (s : Store) (t t' : Transaction)
    (hwf : (txIDs s).Nodup)
    (hpos : 0 < t.Amount) (husr : userExists s t.UserID = true) (hfresh : t.ID ∉ txIDs s)
    (hid : t'.ID = t.ID) (hpos' : 0 < t'.Amount) :
    (AddTransaction ctx s t).1.2 = none ∧
    (AddTransaction ctx (AddTransaction ctx s t).2 t').1.2 =
      some Err.transactionAlreadyExist ∧
    (AddTransaction ctx (AddTransaction ctx s t).2 t').2 = (AddTransaction ctx s t).2 ∧
    (txIDs (AddTransaction ctx s t).2).Nodup := by
  have hfirst := add_fresh ctx s t hpos husr hfresh
  have hs1ids : txIDs (AddTransaction ctx s t).2 = txIDs s ++ [t.ID] := by
    rw [hfirst, txIDs_snoc]
    simp [toStorageTransaction]
  have hmem : t'.ID ∈ txIDs (AddTransaction ctx s t).2 := by
    rw [hs1ids, hid]
    exact List.mem_append_right _ (List.mem_singleton.mpr rfl)
  have hsecond := add_dup ctx (AddTransaction ctx s t).2 t' hpos' hmem
  refine ⟨by rw [hfirst], by rw [hsecond], by rw [hsecond], ?_⟩
  rw [hs1ids]
  simp only [List.nodup_append]
  refine ⟨hwf, List.nodup_singleton t.ID, ?_⟩
  intro a ha hb
  rw [List.mem_singleton.mp hb] at ha
  exact hfresh ha

/-- Witness for the amended C2 at a concrete instance: a successful insert
followed by a resubmission with the same id is rejected as a duplicate and the
store is unchanged by the second call. -/
theorem c2_per_identity_uniqueness_witness :
    (AddTransaction ctx0 wStore wtxA).1.2 = none ∧
    (AddTransaction ctx0 (AddTransaction ctx0 wStore wtxA).2 wtxA).1.2 =
      some Err.transactionAlreadyExist ∧
    (AddTransaction ctx0 (AddTransaction ctx0 wStore wtxA).2 wtxA).2 =
      (AddTransaction ctx0 wStore wtxA).2 ∧
    (txIDs (AddTransaction ctx0 wStore wtxA).2).Nodup :=
  c2_per_identity_uniqueness ctx0 wStore wtxA wtxA
    (by decide) (by decide) (by decide) (by decide) (by decide) (by decide)

end Ledger

namespace Ledger

theorem find_user_none (s : Store) (uid : Nat) (h : userExists s uid = false) :
    s.users.find? (fun u => u.ID == uid) = none := by
  unfold userExists at h
  rcases h0 : s.users.find? (fun u => u.ID == uid) with _ | u
  · exact h0
  · rw [h0] at h
    simp at h

/-- Concrete transaction targeting a user (id 2) absent from `wStore`. -/
def wtxC : Transaction :=
  { ID := 12, UserID := 2, Amount := 5, CreatedAt := 0, IdempotencyKey := 501 }

/-- Concrete transaction with a non-positive (zero) amount. -/
def wtxZero : Transaction :=
  { ID := 13, UserID := 1, Amount := 0, CreatedAt := 0, IdempotencyKey := 502 }

/-- C3: in `AddTransaction`, an insert failure caused by an already existing
identity is returned as `TransactionAlreadyExists`, and this classification is
exact: the conflict marker matches the uniqueness-violation error and no other
failure mode (missing user, foreign-key or not-null violations unrelated to
identity, connection loss, cancellation), so every other storage failure is
surfaced to the caller unmodified - never retried or swallowed. -/
theorem c3_conflict_classification (ctx : Context) (s : Store) (t : Transaction)
    (f : StorageFailure) (s' : Store)
    (hpos : 0 < t.Amount)
    (hins : s.addTransactionRow (toStorageTransaction t) = (Except.error f, s')) :
    AddTransaction ctx s t = ((Transaction.zero, some (handleStorageErr f)), s') ∧
    (handleStorageErr f = Err.transactionAlreadyExist ↔ f = StorageFailure.uniqueViolation) ∧
    (f ≠ StorageFailure.uniqueViolation → handleStorageErr f = Err.storage f) := by
  refine ⟨?_, ⟨?_, ?_⟩, fun h => handle_other f h⟩
  · simp [AddTransaction, ValidateTransaction, hpos, hins]
  · intro h
    by_contra hne
    rw [handle_other f hne] at h
    cases h
  · intro h
    rw [h]
    exact handle_unique

/-- Witness for C3 at a concrete instance: the insert against a store with no
users fails with the repository's not-found error, which does not match the
conflict marker and is surfaced unmodified. -/
theorem c3_conflict_classification_witness :
    AddTransaction ctx0 wEmptyStore wtxA =
      ((Transaction.zero, some (handleStorageErr StorageFailure.userNotFound)), wEmptyStore) ∧
    (handleStorageErr StorageFailure.userNotFound = Err.transactionAlreadyExist ↔
      StorageFailure.userNotFound = StorageFailure.uniqueViolation) ∧
    (StorageFailure.userNotFound ≠ StorageFailure.uniqueViolation →
      handleStorageErr StorageFailure.userNotFound = Err.storage StorageFailure.userNotFound) :=
  c3_conflict_classification ctx0 wEmptyStore wtxA StorageFailure.userNotFound wEmptyStore
    (by decide) (by rfl)

/-- C4: against a user identity that does not exist in the store,
`GetUserBalance`, `GetUserTransactionHistory` and `AddTransaction` (with an
otherwise valid transaction: positive amount, fresh identity) all fail with the
user-not-found error. -/
theorem c4_unknown_user (ctx : Context) (s : Store) (uid page pageSize : Nat)
    (t : Transaction)
    (habs : userExists s uid = false)
    (ht : t.UserID = uid) (hpos : 0 < t.Amount) (hfresh : t.ID ∉ txIDs s) :
    (GetUserBalance ctx s uid).2 = some (Err.storage StorageFailure.userNotFound) ∧
    (GetUserTransactionHistory ctx s uid page pageSize).2 =
      some (Err.storage StorageFailure.userNotFound) ∧
    (AddTransaction ctx s t).1.2 = some (Err.storage StorageFailure.userNotFound) := by
  have hnone := find_user_none s uid habs
  refine ⟨?_, ?_, ?_⟩
  · simp [GetUserBalance, Store.findByID, hnone]
  · simp [GetUserTransactionHistory, Store.findByID, hnone]
  · have := add_no_user ctx s t hpos (by rw [ht]; exact habs) hfresh
    rw [this]

/-- Witness for C4 at a concrete instance: user id 2 is absent from the
one-user store, and all three operations fail with the not-found error. -/
theorem c4_unknown_user_witness :
    (GetUserBalance ctx0 wStore 2).2 = some (Err.storage StorageFailure.userNotFound) ∧
    (GetUserTransactionHistory ctx0 wStore 2 1 10).2 =
      some (Err.storage StorageFailure.userNotFound) ∧
    (AddTransaction ctx0 wStore wtxC).1.2 = some (Err.storage StorageFailure.userNotFound) :=
  c4_unknown_user ctx0 wStore 2 1 10 wtxC (by decide) (by decide) (by decide) (by decide)

/-- C5: `AddTransaction` returns `InvalidTransaction` exactly when the amount is
not strictly positive, in which case the store is left unchanged (no store
access occurs); and `ValidateTransaction` is the pure predicate that the amount
is strictly positive. -/
theorem c5_positivity_validation (ctx : Context) (s : Store) (t : Transaction) :
    ((AddTransaction ctx s t).1.2 = some Err.invalidTransaction ↔ ¬ (0 < t.Amount)) ∧
    (¬ (0 < t.Amount) → (AddTransaction ctx s t).2 = s) ∧
    (ValidateTransaction ctx t = true ↔ 0 < t.Amount) := by
  by_cases hpos : 0 < t.Amount
  · refine ⟨?_, fun h => absurd hpos h, validate_iff ctx t⟩
    have hv : ValidateTransaction ctx t = true := (validate_iff ctx t).mpr hpos
    rcases h : s.addTransactionRow (toStorageTransaction t) with ⟨e, s2⟩
    cases e with
    | error f =>
      simp [AddTransaction, hv, h, hpos]
      unfold handleStorageErr
      split <;> simp
    | ok r =>
      simp [AddTransaction, hv, h, hpos]
  · have hv : ValidateTransaction ctx t = false := by
      simp [ValidateTransaction, hpos]
    refine ⟨?_, ?_, validate_iff ctx t⟩ <;> simp [AddTransaction, hv, hpos]

/-- Witness for C5 at a concrete instance: a zero-amount transaction is
rejected as invalid with the store untouched, and validation is positivity. -/
theorem c5_positivity_validation_witness :
    ((AddTransaction ctx0 wStore wtxZero).1.2 = some Err.invalidTransaction ↔
      ¬ (0 < wtxZero.Amount)) ∧
    (¬ (0 < wtxZero.Amount) → (AddTransaction ctx0 wStore wtxZero).2 = wStore) ∧
    (ValidateTransaction ctx0 wtxZero = true ↔ 0 < wtxZero.Amount) :=
  c5_positivity_validation ctx0 wStore wtxZero

end Ledger

namespace Ledger

/-- Concrete store holding one user (id 1) and one persisted transaction of
amount 100 for that user. -/
def wStore1 : Store :=
  { users := [wUser], transactions := [toStorageTransaction wtxA] }

/-- C6: whenever the user lookup succeeds, `GetUserBalance` relays the
repository's answer unchanged (no arithmetic in the transaction manager), and
that answer equals the sum of the amounts of all transactions persisted for the
user at the instant of the read. -/
theorem c6_balance_is_sum (ctx : Context) (s : Store) (uid : Nat) (u : User)
    (hfind : s.findByID uid = Except.ok u) :
    GetUserBalance ctx s uid = (u.Balance, none) ∧ u.Balance = txSum s uid := by
  refine ⟨by simp [GetUserBalance, hfind], ?_⟩
  unfold Store.findByID at hfind
  rcases h0 : s.users.find? (fun x => x.ID == uid) with _ | u0
  · rw [h0] at hfind
    cases hfind
  · rw [h0] at hfind
    cases hfind
    rfl

/-- Witness for C6 at a concrete instance: after one transaction of amount 100,
the balance read for the user is exactly 100, the sum of the persisted amounts. -/
theorem c6_balance_is_sum_witness :
    GetUserBalance ctx0 wStore1 1 = (100, none) ∧ (100 : Rat) = txSum wStore1 1 :=
  c6_balance_is_sum ctx0 wStore1 1 { ID := 1, Balance := 100 }
    (by norm_num [Store.findByID, wStore1, txSum, wUser, wtxA, toStorageTransaction])

/-- C7: `GetUserTransactionHistory` validates user existence before any
transaction lookup: for an absent user it fails with the not-found error (never
silently an empty-list success), and for an existing user with no persisted
transactions it returns the empty sequence with no error. -/
theorem c7_history_existence (ctx : Context) (s : Store) (uid page pageSize : Nat) :
    (userExists s uid = false →
      GetUserTransactionHistory ctx s uid page pageSize =
        ([], some (Err.storage StorageFailure.userNotFound))) ∧
    (userExists s uid = true →
      s.transactions.filter (fun r => r.UserID == uid) = [] →
      GetUserTransactionHistory ctx s uid page pageSize = ([], none)) := by
  constructor
  · intro habs
    simp [GetUserTransactionHistory, Store.findByID, find_user_none s uid habs]
  · intro hex hfil
    rcases Option.isSome_iff_exists.mp hex with ⟨u0, h0⟩
    simp [GetUserTransactionHistory, Store.findByID, h0,
      Store.getUserTransactionHistory, hfil]

/-- Witness for C7 at concrete instances: an unknown user (id 2) fails with the
not-found error; the known user (id 1) with no transactions gets an empty list. -/
theorem c7_history_existence_witness :
    GetUserTransactionHistory ctx0 wStore 2 1 10 =
      ([], some (Err.storage StorageFailure.userNotFound)) ∧
    GetUserTransactionHistory ctx0 wStore 1 1 10 = ([], none) :=
  ⟨(c7_history_existence ctx0 wStore 2 1 10).1 (by decide),
   (c7_history_existence ctx0 wStore 1 1 10).2 (by decide) (by decide)⟩

/-- C8: whenever `AddTransaction` succeeds, the returned transaction is the
caller's candidate, unchanged in every field. -/
theorem c8_success_returns_input (ctx : Context) (s : Store) (t : Transaction)
    (h : (AddTransaction ctx s t).1.2 = none) :
    (AddTransaction ctx s t).1.1 = t := by
  by_cases hv : ValidateTransaction ctx t = true
  · rcases hr : s.addTransactionRow (toStorageTransaction t) with ⟨e, s2⟩
    cases e with
    | error f => simp [AddTransaction, hv, hr] at h
    | ok r => simp [AddTransaction, hv, hr]
  · rw [Bool.not_eq_true] at hv
    simp [AddTransaction, hv] at h

/-- Witness for C8 at a concrete instance: the successful insert of `wtxA`
returns `wtxA` itself. -/
theorem c8_success_returns_input_witness :
    (AddTransaction ctx0 wStore wtxA).1.1 = wtxA :=
  c8_success_returns_input ctx0 wStore wtxA (by decide)

/-- C9: on every failure - invalid amount, duplicate identity, or any storage
error - `AddTransaction` returns the Go zero-value transaction paired with the
error, never the caller's candidate alongside a non-nil error. -/
theorem c9_zero_value_on_failure (ctx : Context) (s : Store) (t : Transaction) (e : Err)
    (h : (AddTransaction ctx s t).1.2 = some e) :
    (AddTransaction ctx s t).1.1 = Transaction.zero := by
  by_cases hv : ValidateTransaction ctx t = true
  · rcases hr : s.addTransactionRow (toStorageTransaction t) with ⟨e2, s2⟩
    cases e2 with
    | error f => simp [AddTransaction, hv, hr]
    | ok r => simp [AddTransaction, hv, hr] at h
  · rw [Bool.not_eq_true] at hv
    simp [AddTransaction, hv]

/-- Witness for C9 at a concrete instance: the rejected zero-amount submission
returns the zero-value transaction with the invalid-transaction error. -/
theorem c9_zero_value_on_failure_witness :
    (AddTransaction ctx0 wStore wtxZero).1.1 = Transaction.zero :=
  c9_zero_value_on_failure ctx0 wStore wtxZero Err.invalidTransaction (by decide)

/-- C10: the result of `ValidateTransaction` depends only on the transaction's
amount: for any two contexts and any two transactions with equal amounts, the
returned booleans coincide, regardless of id, user id, created-at or
idempotency key. -/
theorem c10_validate_depends_only_on_amount (c1 c2 : Context) (t1 t2 : Transaction)
    (h : t1.Amount = t2.Amount) :
    ValidateTransaction c1 t1 = ValidateTransaction c2 t2 := by
  simp [ValidateTransaction, h]

/-- Witness for C10 at a concrete instance: two transactions of amount 100 with
different ids, users, timestamps and idempotency keys, under different contexts,
validate identically. -/
theorem c10_validate_depends_only_on_amount_witness :
    ValidateTransaction ctx0 wtxA =
      ValidateTransaction { deadline := some 5, cancelled := true }
        { ID := 14, UserID := 3, Amount := 100, CreatedAt := 7, IdempotencyKey := 503 } :=
  c10_validate_depends_only_on_amount ctx0 { deadline := some 5, cancelled := true }
    wtxA { ID := 14, UserID := 3, Amount := 100, CreatedAt := 7, IdempotencyKey := 503 }
    (by decide)

end Ledger
